import Mathlib

/-!
Verification of the point-selection pipeline of `scripts/clusters.py` and of the
interface behavior of `scripts/png2ascii.py` and `scripts/printer.py`.

Numeric values are modelled as exact rationals.  The external clustering
routine `MiniBatchKMeans(n_clusters, random_state, batch_size, n_init).fit`
is third-party library code; it is modelled as an abstract function argument
`km : seed → n_clusters → data → centers`, so every theorem quantifies over
the clustering result (with the library's documented contract — exactly
`n_clusters` centers, each inside the bounding box of the data, since mini-batch
k-means centers are convex combinations of data points — taken as a hypothesis
where a claim needs it).
-/

namespace Clusters

/-- One row of the input observation table `data/moon_history.csv`
(the three feature columns read by `clusters.py`). -/
structure Obs where
  distance_km : ℚ
  libration_elat : ℚ
  libration_elon : ℚ
  deriving DecidableEq, Repr

/-- A point of the three-dimensional feature space (a row of the numpy
arrays handled by `clusters.py`): `x` is the distance coordinate, `y` the
ecliptic-latitude libration, `z` the ecliptic-longitude libration. -/
structure P3 where
  x : ℚ
  y : ℚ
  z : ℚ
  deriving DecidableEq, Repr

/-- `pandas` column minimum (`df[col].min()`), as a fold over a nonempty list.
The empty-table value (NaN in pandas) is defaulted to `0`; all theorems about
tables assume a nonempty table. -/
def foldMin {α : Type} (f : α → ℚ) : List α → ℚ
  | [] => 0
  | o :: os => os.foldl (fun m r => min m (f r)) (f o)

/-- `pandas` column maximum (`df[col].max()`), as a fold over a nonempty list. -/
def foldMax {α : Type} (f : α → ℚ) : List α → ℚ
  | [] => 0
  | o :: os => os.foldl (fun m r => max m (f r)) (f o)

/-- `df["distance_km"].min()`. -/
def distMin (t : List Obs) : ℚ := foldMin Obs.distance_km t

/-- `df["distance_km"].max()`. -/
def distMax (t : List Obs) : ℚ := foldMax Obs.distance_km t

/-- `df["libration_elat"].min()`. -/
def elatMin (t : List Obs) : ℚ := foldMin Obs.libration_elat t

/-- `df["libration_elat"].max()`. -/
def elatMax (t : List Obs) : ℚ := foldMax Obs.libration_elat t

/-- `df["libration_elon"].min()`. -/
def elonMin (t : List Obs) : ℚ := foldMin Obs.libration_elon t

/-- `df["libration_elon"].max()`. -/
def elonMax (t : List Obs) : ℚ := foldMax Obs.libration_elon t

/-- `dist_range = df["distance_km"].max() - df["distance_km"].min()` (line 21). -/
def dist_range (t : List Obs) : ℚ := distMax t - distMin t

/-- `elat_range` (line 22). -/
def elat_range (t : List Obs) : ℚ := elatMax t - elatMin t

/-- `elon_range` (line 23). -/
def elon_range (t : List Obs) : ℚ := elonMax t - elonMin t

/-- `np.linspace(0, 1, n)`: `n` evenly spaced fractions from 0 to 1 inclusive. -/
def linspace01 (n : ℕ) : List ℚ :=
  (List.range n).map (fun i : ℕ => (i : ℚ) / ((n : ℚ) - 1))

/-- The synthetic mesh of lines 32–39: the triple loop over
`np.linspace(0, 1, 10)` appending `[min + frac * range]` points. -/
def grid_points (t : List Obs) : List P3 :=
  (linspace01 10).flatMap (fun d =>
    (linspace01 10).flatMap (fun e1 =>
      (linspace01 10).map (fun e2 =>
        ⟨distMin t + d * dist_range t,
         elatMin t + e1 * elat_range t,
         elonMin t + e2 * elon_range t⟩)))

/-- `features = df[["distance_km", "libration_elat", "libration_elon"]].values`. -/
def features (t : List Obs) : List P3 :=
  t.map (fun o => ⟨o.distance_km, o.libration_elat, o.libration_elon⟩)

/-- `all_points = np.vstack([features, grid_points])` (line 43). -/
def all_points (t : List Obs) : List P3 := features t ++ grid_points t

/-- Fitted state of `sklearn.preprocessing.MinMaxScaler` (feature range (0,1)):
per-feature `data_min_` and `data_range_`. -/
structure MinMaxScaler where
  data_min : P3
  data_range : P3
  deriving DecidableEq, Repr

/-- sklearn `_handle_zeros_in_scale`: a zero range is replaced by 1 so that
constant features transform to 0 instead of dividing by zero. -/
def handle_zeros (r : ℚ) : ℚ := if r = 0 then 1 else r

/-- `MinMaxScaler().fit(pts)`: record per-feature data minima and ranges. -/
def MinMaxScaler.fit (pts : List P3) : MinMaxScaler :=
  ⟨⟨foldMin P3.x pts, foldMin P3.y pts, foldMin P3.z pts⟩,
   ⟨foldMax P3.x pts - foldMin P3.x pts,
    foldMax P3.y pts - foldMin P3.y pts,
    foldMax P3.z pts - foldMin P3.z pts⟩⟩

/-- `scaler.transform`: per feature, `(v - data_min) / handle_zeros data_range`. -/
def MinMaxScaler.transform (s : MinMaxScaler) (p : P3) : P3 :=
  ⟨(p.x - s.data_min.x) / handle_zeros s.data_range.x,
   (p.y - s.data_min.y) / handle_zeros s.data_range.y,
   (p.z - s.data_min.z) / handle_zeros s.data_range.z⟩

/-- `scaler.inverse_transform`: per feature, `v * handle_zeros data_range + data_min`. -/
def MinMaxScaler.inverse_transform (s : MinMaxScaler) (p : P3) : P3 :=
  ⟨p.x * handle_zeros s.data_range.x + s.data_min.x,
   p.y * handle_zeros s.data_range.y + s.data_min.y,
   p.z * handle_zeros s.data_range.z + s.data_min.z⟩

/-- `scaler = MinMaxScaler(); scaler.fit(all_points)` (lines 46–47): the one
scaler of the pipeline, fit on the augmented point set. -/
def scaler (t : List Obs) : MinMaxScaler := MinMaxScaler.fit (all_points t)

/-- `features_scaled = scaler.fit_transform(all_points)` (line 47). -/
def features_scaled (t : List Obs) : List P3 :=
  (all_points t).map (scaler t).transform

/-- `NCLUSTERS = 31` (line 15). -/
def NCLUSTERS : ℕ := 31

/-- numpy round-half-to-even of a rational to an integer. -/
def rhe (q : ℚ) : ℤ :=
  let n := ⌊q⌋
  let f := q - (n : ℚ)
  if f < 1/2 then n
  else if 1/2 < f then n + 1
  else if n % 2 = 0 then n else n + 1

/-- `Series.round(d)` (numpy rounding): round half to even at `d` decimals. -/
def round_dec (d : ℕ) (q : ℚ) : ℚ := (rhe (q * 10 ^ d) : ℚ) / 10 ^ d

/-- Rounding of one cluster-center row (lines 70–72): `distance_km` to 1
decimal, both libration angles to 3 decimals. -/
def roundCenter (c : P3) : P3 :=
  ⟨round_dec 1 c.x, round_dec 3 c.y, round_dec 3 c.z⟩

/-- `f"{i:02d}"`: zero-pad to two digits. -/
def pad2 (i : ℕ) : String := if i < 10 then "0" ++ toString i else toString i

/-- The inserted index column `[f"{i:02d}" for i in range(1, n_clusters + 1)]`
(lines 77–78). -/
def indexStrings : List String := (List.range NCLUSTERS).map (fun i => pad2 (i + 1))

/-- One row of the output table `data/cluster_centers.csv`. -/
structure OutRow where
  index : String
  distance_km : ℚ
  libration_elat : ℚ
  libration_elon : ℚ
  deriving DecidableEq, Repr

/-- `centers_df.sort_values("distance_km")` (line 75): sort rows by the
distance coordinate.  pandas uses quicksort; any sorted permutation is a
faithful model (ties are not distinguished by any property proved here). -/
def sortByDistance (cs : List P3) : List P3 :=
  List.insertionSort (fun a b => a.x ≤ b.x) cs

instance : IsTotal P3 (fun a b => a.x ≤ b.x) := ⟨fun a b => le_total a.x b.x⟩

instance : IsTrans P3 (fun a b => a.x ≤ b.x) := ⟨fun _ _ _ hab hbc => le_trans hab hbc⟩

/-- Lines 64–78 of `clusters.py`: build the output frame from the
physical-unit cluster centers — round, sort by distance, insert the index
column.  `DataFrame.insert` raises `ValueError` when the inserted column
length differs from the frame length; that failure is modelled as `none`. -/
def centers_df (centers : List P3) : Option (List OutRow) :=
  let rounded := centers.map roundCenter
  let sorted := sortByDistance rounded
  if sorted.length = NCLUSTERS then
    some ((indexStrings.zip sorted).map (fun pr => ⟨pr.1, pr.2.x, pr.2.y, pr.2.z⟩))
  else none

/-- `cluster_centers = scaler.inverse_transform(kmeans.cluster_centers_)`
(lines 60–61), with the clustering `km` abstract: the seed passed is the
literal `random_state=42` and the cluster count the literal `NCLUSTERS`. -/
def cluster_centers (km : ℕ → ℕ → List P3 → List P3) (t : List Obs) : List P3 :=
  (km 42 NCLUSTERS (features_scaled t)).map (scaler t).inverse_transform

/-- The whole `clusters.py` pipeline from the in-memory table to the rows of
`data/cluster_centers.csv`. -/
def pipeline (km : ℕ → ℕ → List P3 → List P3) (t : List Obs) : Option (List OutRow) :=
  centers_df (cluster_centers km t)

/-- `q` has at most `d` fractional decimal digits: scaling by `10^d` yields an
integer.  Every value written by the pipeline satisfies this with `d = 1`
(distance) or `d = 3` (librations), by construction of `round_dec`. -/
def hasDecimals (d : ℕ) (q : ℚ) : Prop := (q * 10 ^ d).den = 1

/-- The least number of fractional digits (at most 3) of an exact decimal:
`0` when `q` is an integer, else the least `d ≤ 3` with `q * 10^d` integral.
Only meaningful for values with at most 3 decimals, which is all the
pipeline ever prints. -/
def minFracDigits (q : ℚ) : ℕ :=
  if q.den = 1 then 0
  else if (q * 10).den = 1 then 1
  else if (q * 100).den = 1 then 2
  else 3

/-- Number of fractional digits that `pandas.DataFrame.to_csv` prints for a
float value: Python float `repr` prints the shortest round-tripping decimal,
so trailing zeros are dropped, but an integral float still prints `.0` —
hence at least one fractional digit always appears. -/
def shownFracDigits (q : ℚ) : ℕ := max 1 (minFracDigits q)

/-- Zero-pad a digit string on the left to width `d`. -/
def padZeros (d : ℕ) (s : String) : String :=
  String.mk (List.replicate (d - s.length) '0') ++ s

/-- The decimal text that `to_csv` writes for a float whose value is `q`
(exact for values with at most 3 decimals, the only values the pipeline
writes): shortest decimal form, with at least one fractional digit. -/
def decString (q : ℚ) : String :=
  let d := shownFracDigits q
  let n := (q * 10 ^ d).num
  let a := n.natAbs
  (if n < 0 then "-" else "") ++ toString (a / 10 ^ d) ++ "." ++
    padZeros d (toString (a % 10 ^ d))

/-- One line of `data/cluster_centers.csv`. -/
def csvLine (r : OutRow) : String :=
  r.index ++ "," ++ decString r.distance_km ++ "," ++
    decString r.libration_elat ++ "," ++ decString r.libration_elon

/-- The byte content that `centers_df.to_csv(..., index=False)` writes:
header line then one line per row, no implicit row-index column. -/
def renderCsv (rows : List OutRow) : String :=
  "index,distance_km,libration_elat,libration_elon\n" ++
    String.join (rows.map (fun r => csvLine r ++ "\n"))

set_option linter.unusedVariables false in
/-- One full process invocation of `clusters.py`.  The `system_entropy`
argument models the ambient per-run randomness (what `numpy` would seed a
fresh `RandomState` with had `random_state` not been passed); the script pins
`random_state=42`, so the clustering function is invoked with the literal
seed and the ambient entropy is never consulted. -/
def run_clusters (km : ℕ → ℕ → List P3 → List P3) (system_entropy : ℕ)
    (t : List Obs) : Option String :=
  (pipeline km t).map renderCsv

/-- `c` lies inside the per-coordinate bounding box of the point list `pts`.
Mini-batch k-means centers are convex combinations of input points
(k-means++ initialization picks data points; each update is a running
average of assigned samples), so the library's centers always satisfy this
with respect to the data passed to `fit`. -/
def inBBox (c : P3) (pts : List P3) : Prop :=
  foldMin P3.x pts ≤ c.x ∧ c.x ≤ foldMax P3.x pts ∧
  foldMin P3.y pts ≤ c.y ∧ c.y ≤ foldMax P3.y pts ∧
  foldMin P3.z pts ≤ c.z ∧ c.z ≤ foldMax P3.z pts

/-- A clustering stub that returns a fixed list of centers, used to
instantiate theorems at concrete inputs. -/
def kmConst (cs : List P3) : ℕ → ℕ → List P3 → List P3 := fun _ _ _ => cs

/-- A clustering stub that returns the first `k` data points as centers
(these are genuine data points, hence inside the data's bounding box). -/
def kmTake : ℕ → ℕ → List P3 → List P3 := fun _ k d => d.take k

end Clusters

namespace Png2Ascii

/-- One row of `renders/clusters.csv` as read by `png2ascii.py`. -/
structure ClusterRow where
  index : ℕ
  distance_km : ℚ
  libration_elat : ℚ
  libration_elon : ℚ
  deriving DecidableEq, Repr

/-- Outcome of one `subprocess.check_output(chafa ...)` call: captured stdout
on success, or `CalledProcessError` on a nonzero exit status (the only
exception the loop body catches). -/
inductive ChafaResult where
  | ok (stdout : String)
  | calledProcessError (msg : String)
  deriving DecidableEq, Repr

/-- A record of the aggregate artifact `src/render/ascii.json`. -/
structure MoonRecord where
  index : ℕ
  distance_km : ℚ
  libration_elat : ℚ
  libration_elon : ℚ
  ascii : String
  deriving DecidableEq, Repr

/-- `f"renders/{idx:02d}_moon.png"` (line 22). -/
def img_path (idx : ℕ) : String := "renders/" ++ Clusters.pad2 idx ++ "_moon.png"

/-- The record appended on success (lines 41–47): numeric fields of the row
joined with the stripped tool output. -/
def mkRecord (r : ClusterRow) (stdout : String) : MoonRecord :=
  ⟨r.index, r.distance_km, r.libration_elat, r.libration_elon, stdout.trim⟩

/-- The `for` loop of lines 20–51, with the external tool modelled as a
function from image path to outcome: on success append a record to `result`;
on `CalledProcessError` print an error line and `continue` with the next row.
Returns the accumulated records and the printed error lines, both in input
order. -/
def processRows (chafa : String → ChafaResult) :
    List ClusterRow → List MoonRecord × List String
  | [] => ([], [])
  | r :: rs =>
    match chafa (img_path r.index) with
    | .ok out =>
      let rest := processRows chafa rs
      (mkRecord r out :: rest.1, rest.2)
    | .calledProcessError msg =>
      let rest := processRows chafa rs
      (rest.1, ("Error processing " ++ img_path r.index ++ ": " ++ msg) :: rest.2)

/-- The aggregate artifact written by `json.dump({"moons": result}, f)`
(lines 54–56): an object with the single key `moons` holding the record
list.  It is written unconditionally after the loop. -/
structure AsciiJson where
  moons : List MoonRecord
  deriving DecidableEq, Repr

/-- The whole `png2ascii.py` batch: run the loop over all rows, then write
the artifact and return it together with the error log. -/
def png2ascii (chafa : String → ChafaResult) (rows : List ClusterRow) :
    AsciiJson × List String :=
  (⟨(processRows chafa rows).1⟩, (processRows chafa rows).2)

end Png2Ascii

namespace Printer

/-- A JSON value, as produced by `json.load`. -/
inductive JValue where
  | null
  | bool (b : Bool)
  | num (q : ℚ)
  | str (s : String)
  | arr (elems : List JValue)
  | obj (fields : List (String × JValue))

/-- Observable state of the artifact file `src/render/ascii.json` when
`printer.py` runs: absent (`FileNotFoundError`), unreadable (any other
`OSError`-like failure), present but not valid JSON (`json.JSONDecodeError`),
or successfully parsed to a JSON value. -/
inductive ArtifactState where
  | missing
  | unreadable (msg : String)
  | malformedJson
  | parsed (data : JValue)

/-- Python `dict.get(key, default)` on a JSON object field list. -/
def jlookup (fields : List (String × JValue)) (key : String) : Option JValue :=
  match fields.find? (fun kv => kv.1 == key) with
  | some kv => some kv.2
  | none => none

/-- `load_moon_data` (printer.py lines 10–28), total over every artifact
state: the `try` block is guarded by `except FileNotFoundError`,
`except json.JSONDecodeError` and a catch-all `except Exception`, each
returning `[]`; on success it returns `data.get('moons', [])`.  A parsed
top-level value that is not an object makes `data.get` raise
`AttributeError`, which the catch-all turns into `[]` as well.  The Lean
function's totality models that `load_moon_data` never propagates an
exception. -/
def load_moon_data : ArtifactState → JValue
  | .missing => .arr []
  | .unreadable _ => .arr []
  | .malformedJson => .arr []
  | .parsed (.obj fields) => (jlookup fields "moons").getD (.arr [])
  | .parsed _ => .arr []

/-- Python truthiness of a JSON value (`if not moons:`). -/
def isFalsy : JValue → Bool
  | .null => true
  | .bool b => !b
  | .num q => q == 0
  | .str s => s.isEmpty
  | .arr elems => elems.isEmpty
  | .obj fields => fields.isEmpty

/-- The three banner lines printed at the top of `main` (lines 71–73). -/
def header_lines : List String :=
  ["🌙 ASCII Side of the Moon - Moon Data Display",
   String.mk (List.replicate 50 '='), ""]

/-- Python `len` of a JSON value: defined for sized values, raises
`TypeError` (modelled as `none`) otherwise. -/
def jlen : JValue → Option ℕ
  | .arr elems => some elems.length
  | .obj fields => some fields.length
  | .str s => some s.length
  | _ => none

/-- The transcript of `main` (printer.py lines 69–84) up to and including the
empty-check branch: the banner, then either `No moon data found.` (and
return) or the `Found ...` line.  The per-moon rendering loop below that
point (lines 86–92) is outside the scope of every claim and is not
modelled; `none` models an uncaught exception before any moon is printed. -/
def main_transcript (fs : ArtifactState) : Option (List String) :=
  let moons := load_moon_data fs
  if isFalsy moons then some (header_lines ++ ["No moon data found."])
  else
    match jlen moons with
    | none => none
    | some n =>
      some (header_lines ++ ["Found " ++ toString n ++ " moons in the dataset.", ""])

/-- The artifact states enumerated by the claim: file missing, file
unreadable, malformed JSON, or parsed JSON without a usable `moons` key
(including a non-object top level, where `data.get` raises and the catch-all
returns `[]`). -/
def LoadFailureState : ArtifactState → Prop
  | .missing => True
  | .unreadable _ => True
  | .malformedJson => True
  | .parsed (.obj fields) => jlookup fields "moons" = none
  | .parsed _ => True

end Printer

namespace Clusters

/-- A small non-degenerate observation table (all three ranges nonzero, the
distance minimum `0.04` not representable at 1 decimal) used to instantiate
theorems at a concrete input. -/
def tblSmall : List Obs := [⟨1/25, 0, 0⟩, ⟨9 + 1/25, 1, 1⟩]

/-- Thirty-one distinct centers inside the unit cube, as a concrete
admissible clustering result on normalized data. -/
def cs31 : List P3 :=
  (List.range NCLUSTERS).map (fun i : ℕ => ⟨(i : ℚ)/31, (i : ℚ)/31, (i : ℚ)/31⟩)

/-- A degenerate observation table: three rows, one single distinct value
per feature, hence zero range on every feature. -/
def tblDeg : List Obs := List.replicate 3 ⟨383000 + 1/2, 1/10, -(1/5)⟩

end Clusters

/-! Helper lemmas about the column folds. -/

namespace Clusters

theorem foldl_min_le_init {α : Type} (f : α → ℚ) (l : List α) (a : ℚ) :
    l.foldl (fun m r => min m (f r)) a ≤ a := by
  induction l generalizing a with
  | nil => exact le_refl a
  | cons x xs ih => exact le_trans (ih (min a (f x))) (min_le_left a (f x))

theorem foldl_min_le_mem {α : Type} (f : α → ℚ) {l : List α} {x : α}
    (hx : x ∈ l) (a : ℚ) : l.foldl (fun m r => min m (f r)) a ≤ f x := by
  induction l generalizing a with
  | nil => cases hx
  | cons y ys ih =>
    rcases List.mem_cons.mp hx with h | h
    · subst h
      exact le_trans (foldl_min_le_init f ys (min a (f x))) (min_le_right a (f x))
    · exact ih h (min a (f y))

theorem le_foldl_min {α : Type} (f : α → ℚ) {l : List α} {a b : ℚ}
    (ha : b ≤ a) (hl : ∀ x ∈ l, b ≤ f x) :
    b ≤ l.foldl (fun m r => min m (f r)) a := by
  induction l generalizing a with
  | nil => exact ha
  | cons y ys ih =>
    exact ih (le_min ha (hl y (List.mem_cons_self y ys)))
      (fun x hx => hl x (List.mem_cons_of_mem y hx))

theorem init_le_foldl_max {α : Type} (f : α → ℚ) (l : List α) (a : ℚ) :
    a ≤ l.foldl (fun m r => max m (f r)) a := by
  induction l generalizing a with
  | nil => exact le_refl a
  | cons x xs ih => exact le_trans (le_max_left a (f x)) (ih (max a (f x)))

theorem mem_le_foldl_max {α : Type} (f : α → ℚ) {l : List α} {x : α}
    (hx : x ∈ l) (a : ℚ) : f x ≤ l.foldl (fun m r => max m (f r)) a := by
  induction l generalizing a with
  | nil => cases hx
  | cons y ys ih =>
    rcases List.mem_cons.mp hx with h | h
    · subst h
      exact le_trans (le_max_right a (f x)) (init_le_foldl_max f ys (max a (f x)))
    · exact ih h (max a (f y))

theorem foldl_max_le {α : Type} (f : α → ℚ) {l : List α} {a b : ℚ}
    (ha : a ≤ b) (hl : ∀ x ∈ l, f x ≤ b) :
    l.foldl (fun m r => max m (f r)) a ≤ b := by
  induction l generalizing a with
  | nil => exact ha
  | cons y ys ih =>
    exact ih (max_le ha (hl y (List.mem_cons_self y ys)))
      (fun x hx => hl x (List.mem_cons_of_mem y hx))

theorem foldMin_le_of_mem {α : Type} (f : α → ℚ) {l : List α} {x : α}
    (hx : x ∈ l) : foldMin f l ≤ f x := by
  cases l with
  | nil => cases hx
  | cons y ys =>
    rcases List.mem_cons.mp hx with h | h
    · subst h
      exact foldl_min_le_init f ys (f x)
    · exact foldl_min_le_mem f h (f y)

theorem le_foldMin {α : Type} (f : α → ℚ) {l : List α} {b : ℚ}
    (hne : l ≠ []) (hl : ∀ x ∈ l, b ≤ f x) : b ≤ foldMin f l := by
  cases l with
  | nil => exact absurd rfl hne
  | cons y ys =>
    exact le_foldl_min f (hl y (List.mem_cons_self y ys))
      (fun x hx => hl x (List.mem_cons_of_mem y hx))

theorem mem_le_foldMax {α : Type} (f : α → ℚ) {l : List α} {x : α}
    (hx : x ∈ l) : f x ≤ foldMax f l := by
  cases l with
  | nil => cases hx
  | cons y ys =>
    rcases List.mem_cons.mp hx with h | h
    · subst h
      exact init_le_foldl_max f ys (f x)
    · exact mem_le_foldl_max f h (f y)

theorem foldMax_le {α : Type} (f : α → ℚ) {l : List α} {b : ℚ}
    (hne : l ≠ []) (hl : ∀ x ∈ l, f x ≤ b) : foldMax f l ≤ b := by
  cases l with
  | nil => exact absurd rfl hne
  | cons y ys =>
    exact foldl_max_le f (hl y (List.mem_cons_self y ys))
      (fun x hx => hl x (List.mem_cons_of_mem y hx))

theorem foldMin_le_foldMax {α : Type} (f : α → ℚ) {l : List α} (hne : l ≠ []) :
    foldMin f l ≤ foldMax f l := by
  cases l with
  | nil => exact absurd rfl hne
  | cons y ys =>
    exact le_trans (foldMin_le_of_mem f (List.mem_cons_self y ys))
      (mem_le_foldMax f (List.mem_cons_self y ys))

end Clusters

namespace Clusters

theorem length_linspace01 (n : ℕ) : (linspace01 n).length = n := by
  unfold linspace01
  rw [List.length_map, List.length_range]

theorem mem_linspace01_ten {q : ℚ} (hq : q ∈ linspace01 10) : 0 ≤ q ∧ q ≤ 1 := by
  rcases List.mem_map.mp hq with ⟨i, hi, rfl⟩
  have hilt : i < 10 := List.mem_range.mp hi
  have hi9 : i ≤ 9 := by omega
  have h9 : ((10 : ℕ) : ℚ) - 1 = 9 := by norm_num
  rw [h9]
  constructor
  · exact div_nonneg (Nat.cast_nonneg i) (by norm_num)
  · rw [div_le_one (by norm_num)]
    exact_mod_cast hi9

theorem zero_mem_linspace01_ten : (0 : ℚ) ∈ linspace01 10 := by
  have h0 : (0 : ℕ) ∈ List.range 10 := List.mem_range.mpr (by norm_num)
  exact List.mem_map.mpr ⟨0, h0, by norm_num⟩

theorem one_mem_linspace01_ten : (1 : ℚ) ∈ linspace01 10 := by
  have h9 : (9 : ℕ) ∈ List.range 10 := List.mem_range.mpr (by norm_num)
  exact List.mem_map.mpr ⟨9, h9, by norm_num⟩

theorem flatMap_const_length {α β : Type} (l : List α) (f : α → List β) (k : ℕ)
    (h : ∀ a ∈ l, (f a).length = k) : (l.flatMap f).length = l.length * k := by
  induction l with
  | nil => simp
  | cons a as ih =>
    rw [List.flatMap_cons, List.length_append, h a (List.mem_cons_self a as),
      ih (fun b hb => h b (List.mem_cons_of_mem a hb)), List.length_cons,
      Nat.succ_mul]
    ring

theorem length_grid_points (t : List Obs) : (grid_points t).length = 1000 := by
  unfold grid_points
  rw [flatMap_const_length _ _ 100]
  · rw [length_linspace01]
  · intro d _
    rw [flatMap_const_length _ _ 10]
    · rw [length_linspace01]
    · intro e1 _
      rw [List.length_map, length_linspace01]

theorem mem_grid_points {t : List Obs} {p : P3} :
    p ∈ grid_points t ↔
      ∃ d ∈ linspace01 10, ∃ e1 ∈ linspace01 10, ∃ e2 ∈ linspace01 10,
        p = ⟨distMin t + d * dist_range t, elatMin t + e1 * elat_range t,
             elonMin t + e2 * elon_range t⟩ := by
  simp only [grid_points, List.mem_flatMap, List.mem_map]
  constructor
  · rintro ⟨d, hd, e1, he1, e2, he2, rfl⟩
    exact ⟨d, hd, e1, he1, e2, he2, rfl⟩
  · rintro ⟨d, hd, e1, he1, e2, he2, rfl⟩
    exact ⟨d, hd, e1, he1, e2, he2, rfl⟩

theorem dist_range_nonneg (t : List Obs) : 0 ≤ dist_range t := by
  cases t with
  | nil => simp [dist_range, distMax, distMin, foldMax, foldMin]
  | cons o os =>
    exact sub_nonneg.mpr (foldMin_le_foldMax Obs.distance_km (List.cons_ne_nil o os))

theorem elat_range_nonneg (t : List Obs) : 0 ≤ elat_range t := by
  cases t with
  | nil => simp [elat_range, elatMax, elatMin, foldMax, foldMin]
  | cons o os =>
    exact sub_nonneg.mpr (foldMin_le_foldMax Obs.libration_elat (List.cons_ne_nil o os))

theorem elon_range_nonneg (t : List Obs) : 0 ≤ elon_range t := by
  cases t with
  | nil => simp [elon_range, elonMax, elonMin, foldMax, foldMin]
  | cons o os =>
    exact sub_nonneg.mpr (foldMin_le_foldMax Obs.libration_elon (List.cons_ne_nil o os))

theorem low_corner_mem_grid (t : List Obs) :
    (⟨distMin t, elatMin t, elonMin t⟩ : P3) ∈ grid_points t := by
  rw [mem_grid_points]
  refine ⟨0, zero_mem_linspace01_ten, 0, zero_mem_linspace01_ten, 0,
    zero_mem_linspace01_ten, ?_⟩
  simp

theorem high_corner_mem_grid (t : List Obs) :
    (⟨distMax t, elatMax t, elonMax t⟩ : P3) ∈ grid_points t := by
  rw [mem_grid_points]
  refine ⟨1, one_mem_linspace01_ten, 1, one_mem_linspace01_ten, 1,
    one_mem_linspace01_ten, ?_⟩
  simp [dist_range, elat_range, elon_range]

theorem mem_grid_points_bounds {t : List Obs} {p : P3} (hp : p ∈ grid_points t) :
    (distMin t ≤ p.x ∧ p.x ≤ distMax t) ∧ (elatMin t ≤ p.y ∧ p.y ≤ elatMax t) ∧
      (elonMin t ≤ p.z ∧ p.z ≤ elonMax t) := by
  rcases mem_grid_points.mp hp with ⟨d, hd, e1, he1, e2, he2, rfl⟩
  obtain ⟨hd0, hd1⟩ := mem_linspace01_ten hd
  obtain ⟨he10, he11⟩ := mem_linspace01_ten he1
  obtain ⟨he20, he21⟩ := mem_linspace01_ten he2
  refine ⟨⟨?_, ?_⟩, ⟨?_, ?_⟩, ⟨?_, ?_⟩⟩
  · exact le_add_of_nonneg_right (mul_nonneg hd0 (dist_range_nonneg t))
  · calc distMin t + d * dist_range t ≤ distMin t + dist_range t := by
          exact add_le_add_left (mul_le_of_le_one_left (dist_range_nonneg t) hd1) _
      _ = distMax t := by simp [dist_range]
  · exact le_add_of_nonneg_right (mul_nonneg he10 (elat_range_nonneg t))
  · calc elatMin t + e1 * elat_range t ≤ elatMin t + elat_range t := by
          exact add_le_add_left (mul_le_of_le_one_left (elat_range_nonneg t) he11) _
      _ = elatMax t := by simp [elat_range]
  · exact le_add_of_nonneg_right (mul_nonneg he20 (elon_range_nonneg t))
  · calc elonMin t + e2 * elon_range t ≤ elonMin t + elon_range t := by
          exact add_le_add_left (mul_le_of_le_one_left (elon_range_nonneg t) he21) _
      _ = elonMax t := by simp [elon_range]

theorem mem_all_points_bounds {t : List Obs} {p : P3} (hp : p ∈ all_points t) :
    (distMin t ≤ p.x ∧ p.x ≤ distMax t) ∧ (elatMin t ≤ p.y ∧ p.y ≤ elatMax t) ∧
      (elonMin t ≤ p.z ∧ p.z ≤ elonMax t) := by
  rcases List.mem_append.mp hp with h | h
  · rcases List.mem_map.mp h with ⟨o, ho, rfl⟩
    exact ⟨⟨foldMin_le_of_mem Obs.distance_km ho, mem_le_foldMax Obs.distance_km ho⟩,
      ⟨foldMin_le_of_mem Obs.libration_elat ho, mem_le_foldMax Obs.libration_elat ho⟩,
      ⟨foldMin_le_of_mem Obs.libration_elon ho, mem_le_foldMax Obs.libration_elon ho⟩⟩
  · exact mem_grid_points_bounds h

theorem all_points_ne_nil (t : List Obs) : all_points t ≠ [] := by
  intro h
  have hg : grid_points t = [] := (List.append_eq_nil.mp h).2
  have := length_grid_points t
  rw [hg] at this
  simp at this

theorem scaler_eq (t : List Obs) :
    scaler t = ⟨⟨distMin t, elatMin t, elonMin t⟩,
      ⟨dist_range t, elat_range t, elon_range t⟩⟩ := by
  have hxmin : foldMin P3.x (all_points t) = distMin t := by
    refine le_antisymm ?_ ?_
    · exact foldMin_le_of_mem P3.x
        (List.mem_append_right _ (low_corner_mem_grid t))
    · exact le_foldMin P3.x (all_points_ne_nil t)
        (fun p hp => (mem_all_points_bounds hp).1.1)
  have hymin : foldMin P3.y (all_points t) = elatMin t := by
    refine le_antisymm ?_ ?_
    · exact foldMin_le_of_mem P3.y
        (List.mem_append_right _ (low_corner_mem_grid t))
    · exact le_foldMin P3.y (all_points_ne_nil t)
        (fun p hp => (mem_all_points_bounds hp).2.1.1)
  have hzmin : foldMin P3.z (all_points t) = elonMin t := by
    refine le_antisymm ?_ ?_
    · exact foldMin_le_of_mem P3.z
        (List.mem_append_right _ (low_corner_mem_grid t))
    · exact le_foldMin P3.z (all_points_ne_nil t)
        (fun p hp => (mem_all_points_bounds hp).2.2.1)
  have hxmax : foldMax P3.x (all_points t) = distMax t := by
    refine le_antisymm ?_ ?_
    · exact foldMax_le P3.x (all_points_ne_nil t)
        (fun p hp => (mem_all_points_bounds hp).1.2)
    · exact mem_le_foldMax P3.x
        (List.mem_append_right _ (high_corner_mem_grid t))
  have hymax : foldMax P3.y (all_points t) = elatMax t := by
    refine le_antisymm ?_ ?_
    · exact foldMax_le P3.y (all_points_ne_nil t)
        (fun p hp => (mem_all_points_bounds hp).2.1.2)
    · exact mem_le_foldMax P3.y
        (List.mem_append_right _ (high_corner_mem_grid t))
  have hzmax : foldMax P3.z (all_points t) = elonMax t := by
    refine le_antisymm ?_ ?_
    · exact foldMax_le P3.z (all_points_ne_nil t)
        (fun p hp => (mem_all_points_bounds hp).2.2.2)
    · exact mem_le_foldMax P3.z
        (List.mem_append_right _ (high_corner_mem_grid t))
  unfold scaler MinMaxScaler.fit
  rw [hxmin, hymin, hzmin, hxmax, hymax, hzmax]
  rfl

end Clusters

namespace Clusters

theorem handle_zeros_pos {r : ℚ} (hr : 0 ≤ r) : 0 < handle_zeros r := by
  unfold handle_zeros
  split_ifs with h
  · norm_num
  · exact lt_of_le_of_ne hr (Ne.symm h)

theorem handle_zeros_ne_zero (r : ℚ) : handle_zeros r ≠ 0 := by
  unfold handle_zeros
  split_ifs with h
  · norm_num
  · exact h

theorem inverse_transform_transform (s : MinMaxScaler) (p : P3) :
    s.inverse_transform (s.transform p) = p := by
  unfold MinMaxScaler.inverse_transform MinMaxScaler.transform
  have hx := handle_zeros_ne_zero s.data_range.x
  have hy := handle_zeros_ne_zero s.data_range.y
  have hz := handle_zeros_ne_zero s.data_range.z
  cases p with
  | mk px py pz =>
    simp only [P3.mk.injEq]
    refine ⟨?_, ?_, ?_⟩
    · rw [div_mul_cancel₀ _ hx]; ring
    · rw [div_mul_cancel₀ _ hy]; ring
    · rw [div_mul_cancel₀ _ hz]; ring

theorem transform_scaler (t : List Obs) (p : P3) :
    (scaler t).transform p =
      ⟨(p.x - distMin t) / handle_zeros (dist_range t),
       (p.y - elatMin t) / handle_zeros (elat_range t),
       (p.z - elonMin t) / handle_zeros (elon_range t)⟩ := by
  rw [scaler_eq]
  rfl

theorem inverse_transform_scaler (t : List Obs) (c : P3) :
    (scaler t).inverse_transform c =
      ⟨c.x * handle_zeros (dist_range t) + distMin t,
       c.y * handle_zeros (elat_range t) + elatMin t,
       c.z * handle_zeros (elon_range t) + elonMin t⟩ := by
  rw [scaler_eq]
  rfl

theorem mem_features_scaled_bounds {t : List Obs} {q : P3}
    (hq : q ∈ features_scaled t) :
    (0 ≤ q.x ∧ q.x ≤ dist_range t / handle_zeros (dist_range t)) ∧
    (0 ≤ q.y ∧ q.y ≤ elat_range t / handle_zeros (elat_range t)) ∧
    (0 ≤ q.z ∧ q.z ≤ elon_range t / handle_zeros (elon_range t)) := by
  rcases List.mem_map.mp hq with ⟨p, hp, rfl⟩
  obtain ⟨⟨hx1, hx2⟩, ⟨hy1, hy2⟩, ⟨hz1, hz2⟩⟩ := mem_all_points_bounds hp
  rw [transform_scaler]
  have hpx := handle_zeros_pos (dist_range_nonneg t)
  have hpy := handle_zeros_pos (elat_range_nonneg t)
  have hpz := handle_zeros_pos (elon_range_nonneg t)
  refine ⟨⟨?_, ?_⟩, ⟨?_, ?_⟩, ⟨?_, ?_⟩⟩
  · exact div_nonneg (sub_nonneg.mpr hx1) hpx.le
  · exact (div_le_div_iff_of_pos_right hpx).mpr (by simp [dist_range]; linarith)
  · exact div_nonneg (sub_nonneg.mpr hy1) hpy.le
  · exact (div_le_div_iff_of_pos_right hpy).mpr (by simp [elat_range]; linarith)
  · exact div_nonneg (sub_nonneg.mpr hz1) hpz.le
  · exact (div_le_div_iff_of_pos_right hpz).mpr (by simp [elon_range]; linarith)

theorem features_scaled_ne_nil (t : List Obs) : features_scaled t ≠ [] := by
  intro h
  exact all_points_ne_nil t (List.map_eq_nil_iff.mp h)

theorem low_corner_scaled_mem (t : List Obs) :
    (⟨0, 0, 0⟩ : P3) ∈ features_scaled t := by
  have hmem : (⟨distMin t, elatMin t, elonMin t⟩ : P3) ∈ all_points t :=
    List.mem_append_right _ (low_corner_mem_grid t)
  have himg : (scaler t).transform ⟨distMin t, elatMin t, elonMin t⟩ = ⟨0, 0, 0⟩ := by
    rw [transform_scaler]
    simp
  exact List.mem_map.mpr ⟨_, hmem, himg⟩

theorem high_corner_scaled_mem (t : List Obs) :
    (⟨dist_range t / handle_zeros (dist_range t),
      elat_range t / handle_zeros (elat_range t),
      elon_range t / handle_zeros (elon_range t)⟩ : P3) ∈ features_scaled t := by
  have hmem : (⟨distMax t, elatMax t, elonMax t⟩ : P3) ∈ all_points t :=
    List.mem_append_right _ (high_corner_mem_grid t)
  have himg : (scaler t).transform ⟨distMax t, elatMax t, elonMax t⟩ =
      ⟨dist_range t / handle_zeros (dist_range t),
       elat_range t / handle_zeros (elat_range t),
       elon_range t / handle_zeros (elon_range t)⟩ := by
    rw [transform_scaler]
    simp [dist_range, elat_range, elon_range]
  exact List.mem_map.mpr ⟨_, hmem, himg⟩

theorem scaled_foldMin_x (t : List Obs) : foldMin P3.x (features_scaled t) = 0 := by
  refine le_antisymm (foldMin_le_of_mem P3.x (low_corner_scaled_mem t)) ?_
  exact le_foldMin P3.x (features_scaled_ne_nil t)
    (fun q hq => (mem_features_scaled_bounds hq).1.1)

theorem scaled_foldMin_y (t : List Obs) : foldMin P3.y (features_scaled t) = 0 := by
  refine le_antisymm (foldMin_le_of_mem P3.y (low_corner_scaled_mem t)) ?_
  exact le_foldMin P3.y (features_scaled_ne_nil t)
    (fun q hq => (mem_features_scaled_bounds hq).2.1.1)

theorem scaled_foldMin_z (t : List Obs) : foldMin P3.z (features_scaled t) = 0 := by
  refine le_antisymm (foldMin_le_of_mem P3.z (low_corner_scaled_mem t)) ?_
  exact le_foldMin P3.z (features_scaled_ne_nil t)
    (fun q hq => (mem_features_scaled_bounds hq).2.2.1)

theorem scaled_foldMax_x (t : List Obs) :
    foldMax P3.x (features_scaled t) = dist_range t / handle_zeros (dist_range t) := by
  refine le_antisymm ?_ (mem_le_foldMax P3.x (high_corner_scaled_mem t))
  exact foldMax_le P3.x (features_scaled_ne_nil t)
    (fun q hq => (mem_features_scaled_bounds hq).1.2)

theorem scaled_foldMax_y (t : List Obs) :
    foldMax P3.y (features_scaled t) = elat_range t / handle_zeros (elat_range t) := by
  refine le_antisymm ?_ (mem_le_foldMax P3.y (high_corner_scaled_mem t))
  exact foldMax_le P3.y (features_scaled_ne_nil t)
    (fun q hq => (mem_features_scaled_bounds hq).2.1.2)

theorem scaled_foldMax_z (t : List Obs) :
    foldMax P3.z (features_scaled t) = elon_range t / handle_zeros (elon_range t) := by
  refine le_antisymm ?_ (mem_le_foldMax P3.z (high_corner_scaled_mem t))
  exact foldMax_le P3.z (features_scaled_ne_nil t)
    (fun q hq => (mem_features_scaled_bounds hq).2.2.2)

theorem unit_scale_bound {mn mx v : ℚ} (hmn : mn ≤ mx) (h0 : 0 ≤ v)
    (h1 : v ≤ (mx - mn) / handle_zeros (mx - mn)) :
    mn ≤ v * handle_zeros (mx - mn) + mn ∧ v * handle_zeros (mx - mn) + mn ≤ mx := by
  have hpos := handle_zeros_pos (sub_nonneg.mpr hmn)
  constructor
  · exact le_add_of_nonneg_left (mul_nonneg h0 hpos.le)
  · have h2 : v * handle_zeros (mx - mn) ≤
        ((mx - mn) / handle_zeros (mx - mn)) * handle_zeros (mx - mn) :=
      mul_le_mul_of_nonneg_right h1 hpos.le
    rw [div_mul_cancel₀ _ (handle_zeros_ne_zero (mx - mn))] at h2
    linarith

end Clusters

namespace Clusters

theorem rhe_bounds (q : ℚ) : q - 1/2 ≤ (rhe q : ℚ) ∧ (rhe q : ℚ) ≤ q + 1/2 := by
  have hfl : (⌊q⌋ : ℚ) ≤ q := Int.floor_le q
  have hfu : q < (⌊q⌋ : ℚ) + 1 := Int.lt_floor_add_one q
  simp only [rhe]
  split_ifs with h1 h2 h3
  · exact ⟨by linarith, by linarith⟩
  · push_cast
    exact ⟨by linarith, by linarith⟩
  · exact ⟨by linarith, by linarith⟩
  · push_cast
    exact ⟨by linarith, by linarith⟩

theorem round_dec_bounds (d : ℕ) (q : ℚ) :
    q - 1/(2 * 10 ^ d) ≤ round_dec d q ∧ round_dec d q ≤ q + 1/(2 * 10 ^ d) := by
  have h10 : (0:ℚ) < 10 ^ d := by positivity
  have hne : ((10:ℚ) ^ d) ≠ 0 := ne_of_gt h10
  obtain ⟨hl, hu⟩ := rhe_bounds (q * 10 ^ d)
  unfold round_dec
  constructor
  · rw [le_div_iff₀ h10]
    have he : (q - 1/(2 * 10 ^ d)) * 10 ^ d = q * 10 ^ d - 1/2 := by
      field_simp
      ring
    rw [he]
    exact hl
  · rw [div_le_iff₀ h10]
    have he : (q + 1/(2 * 10 ^ d)) * 10 ^ d = q * 10 ^ d + 1/2 := by
      field_simp
      ring
    rw [he]
    exact hu

theorem hasDecimals_round_dec (d : ℕ) (q : ℚ) : hasDecimals d (round_dec d q) := by
  unfold hasDecimals round_dec
  rw [div_mul_cancel₀]
  · exact Rat.den_intCast _
  · positivity

theorem minFracDigits_le_three (q : ℚ) : minFracDigits q ≤ 3 := by
  unfold minFracDigits
  split_ifs <;> norm_num

theorem one_le_shownFracDigits (q : ℚ) : 1 ≤ shownFracDigits q :=
  le_max_left 1 (minFracDigits q)

theorem shownFracDigits_le_three (q : ℚ) : shownFracDigits q ≤ 3 :=
  max_le (by norm_num) (minFracDigits_le_three q)

theorem shownFracDigits_round_one (q : ℚ) : shownFracDigits (round_dec 1 q) = 1 := by
  have h := hasDecimals_round_dec 1 q
  unfold hasDecimals at h
  rw [pow_one] at h
  unfold shownFracDigits minFracDigits
  by_cases h0 : (round_dec 1 q).den = 1
  · rw [if_pos h0]
    norm_num
  · rw [if_neg h0, if_pos h]
    norm_num

theorem length_indexStrings : indexStrings.length = NCLUSTERS := by
  simp [indexStrings]

theorem centers_df_eq_some {cs : List P3} {rows : List OutRow}
    (h : centers_df cs = some rows) :
    rows = (indexStrings.zip (sortByDistance (cs.map roundCenter))).map
        (fun pr => ⟨pr.1, pr.2.x, pr.2.y, pr.2.z⟩) ∧
      (sortByDistance (cs.map roundCenter)).length = NCLUSTERS := by
  simp only [centers_df] at h
  split_ifs at h with hc
  exact ⟨(Option.some.injEq _ _ ▸ h).symm, hc⟩

theorem centers_df_some_of_length {cs : List P3} (h : cs.length = NCLUSTERS) :
    ∃ rows, centers_df cs = some rows := by
  have hlen : (sortByDistance (cs.map roundCenter)).length = NCLUSTERS := by
    rw [sortByDistance, (List.perm_insertionSort _ _).length_eq, List.length_map]
    exact h
  simp only [centers_df]
  rw [if_pos hlen]
  exact ⟨_, rfl⟩

theorem mem_rows_fields {cs : List P3} {rows : List OutRow}
    (h : centers_df cs = some rows) {r : OutRow} (hr : r ∈ rows) :
    ∃ c ∈ cs, r.distance_km = round_dec 1 c.x ∧
      r.libration_elat = round_dec 3 c.y ∧ r.libration_elon = round_dec 3 c.z := by
  obtain ⟨hrows, _⟩ := centers_df_eq_some h
  subst hrows
  rcases List.mem_map.mp hr with ⟨pr, hpr, rfl⟩
  have hsnd : pr.2 ∈ sortByDistance (cs.map roundCenter) := (List.of_mem_zip hpr).2
  rw [sortByDistance, List.mem_insertionSort] at hsnd
  rcases List.mem_map.mp hsnd with ⟨c, hc, hcr⟩
  exact ⟨c, hc, by rw [← hcr]; exact ⟨rfl, rfl, rfl⟩⟩

theorem rows_length {cs : List P3} {rows : List OutRow}
    (h : centers_df cs = some rows) : rows.length = NCLUSTERS := by
  obtain ⟨hrows, hlen⟩ := centers_df_eq_some h
  subst hrows
  rw [List.length_map, List.length_zip, length_indexStrings, hlen]
  exact Nat.min_self _

theorem rows_map_index {cs : List P3} {rows : List OutRow}
    (h : centers_df cs = some rows) : rows.map OutRow.index = indexStrings := by
  obtain ⟨hrows, hlen⟩ := centers_df_eq_some h
  subst hrows
  rw [List.map_map]
  have hfun : (OutRow.index ∘ fun pr : String × P3 => (⟨pr.1, pr.2.x, pr.2.y, pr.2.z⟩ : OutRow)) =
      Prod.fst := rfl
  rw [hfun]
  exact List.map_fst_zip _ _ (by rw [length_indexStrings, hlen])

theorem rows_sorted {cs : List P3} {rows : List OutRow}
    (h : centers_df cs = some rows) :
    rows.Pairwise (fun a b => a.distance_km ≤ b.distance_km) := by
  obtain ⟨hrows, hlen⟩ := centers_df_eq_some h
  subst hrows
  have hs : (sortByDistance (cs.map roundCenter)).Pairwise (fun a b : P3 => a.x ≤ b.x) :=
    List.sorted_insertionSort _ _
  have hmap : (indexStrings.zip (sortByDistance (cs.map roundCenter))).map Prod.snd =
      sortByDistance (cs.map roundCenter) :=
    List.map_snd_zip _ _ (by rw [length_indexStrings, hlen])
  rw [← hmap] at hs
  rw [List.pairwise_map] at hs ⊢
  exact hs

end Clusters

namespace Clusters

theorem cluster_centers_bounds {km : ℕ → ℕ → List P3 → List P3} {t : List Obs}
    (hbb : ∀ c ∈ km 42 NCLUSTERS (features_scaled t), inBBox c (features_scaled t)) :
    ∀ c ∈ cluster_centers km t,
      (distMin t ≤ c.x ∧ c.x ≤ distMax t) ∧ (elatMin t ≤ c.y ∧ c.y ≤ elatMax t) ∧
        (elonMin t ≤ c.z ∧ c.z ≤ elonMax t) := by
  intro c hc
  rcases List.mem_map.mp hc with ⟨c0, hc0, rfl⟩
  have hb := hbb c0 hc0
  unfold inBBox at hb
  obtain ⟨hx1, hx2, hy1, hy2, hz1, hz2⟩ := hb
  rw [scaled_foldMin_x] at hx1
  rw [scaled_foldMax_x] at hx2
  rw [scaled_foldMin_y] at hy1
  rw [scaled_foldMax_y] at hy2
  rw [scaled_foldMin_z] at hz1
  rw [scaled_foldMax_z] at hz2
  have hdx : distMin t ≤ distMax t := sub_nonneg.mp (dist_range_nonneg t)
  have hdy : elatMin t ≤ elatMax t := sub_nonneg.mp (elat_range_nonneg t)
  have hdz : elonMin t ≤ elonMax t := sub_nonneg.mp (elon_range_nonneg t)
  simp only [dist_range, elat_range, elon_range] at hx2 hy2 hz2
  rw [inverse_transform_scaler]
  simp only [dist_range, elat_range, elon_range]
  exact ⟨unit_scale_bound hdx hx1 hx2, unit_scale_bound hdy hy1 hy2,
    unit_scale_bound hdz hz1 hz2⟩

theorem centers_collapse {km : ℕ → ℕ → List P3 → List P3} {t : List Obs}
    (hx : dist_range t = 0) (hy : elat_range t = 0) (hz : elon_range t = 0)
    (hbb : ∀ c ∈ km 42 NCLUSTERS (features_scaled t), inBBox c (features_scaled t)) :
    ∀ c ∈ cluster_centers km t, c = ⟨distMin t, elatMin t, elonMin t⟩ := by
  intro c hc
  rcases List.mem_map.mp hc with ⟨c0, hc0, rfl⟩
  have hb := hbb c0 hc0
  unfold inBBox at hb
  obtain ⟨hx1, hx2, hy1, hy2, hz1, hz2⟩ := hb
  rw [scaled_foldMin_x] at hx1
  rw [scaled_foldMax_x, hx] at hx2
  rw [scaled_foldMin_y] at hy1
  rw [scaled_foldMax_y, hy] at hy2
  rw [scaled_foldMin_z] at hz1
  rw [scaled_foldMax_z, hz] at hz2
  norm_num at hx2 hy2 hz2
  have hcx : c0.x = 0 := le_antisymm hx2 hx1
  have hcy : c0.y = 0 := le_antisymm hy2 hy1
  have hcz : c0.z = 0 := le_antisymm hz2 hz1
  rw [inverse_transform_scaler, hcx, hcy, hcz]
  simp

theorem pipeline_some_of_length {km : ℕ → ℕ → List P3 → List P3} {t : List Obs}
    (hlen : (km 42 NCLUSTERS (features_scaled t)).length = NCLUSTERS) :
    ∃ rows, pipeline km t = some rows := by
  apply centers_df_some_of_length
  rw [cluster_centers, List.length_map]
  exact hlen

theorem pipeline_kmConst (cs : List P3) (t : List Obs) :
    pipeline (kmConst cs) t = centers_df (cs.map (MinMaxScaler.inverse_transform
      ⟨⟨distMin t, elatMin t, elonMin t⟩,
       ⟨dist_range t, elat_range t, elon_range t⟩⟩)) := by
  show centers_df (cs.map (scaler t).inverse_transform) = _
  rw [scaler_eq]

end Clusters

namespace Clusters

theorem indexStrings_eq :
    indexStrings = ["01", "02", "03", "04", "05", "06", "07", "08", "09", "10",
      "11", "12", "13", "14", "15", "16", "17", "18", "19", "20", "21", "22",
      "23", "24", "25", "26", "27", "28", "29", "30", "31"] := by
  decide

/-- C3: For any fixed, valid input table and the fixed configuration (K=31,
grid resolution 10, seed 42), two runs of the pipeline produce byte-identical
output tables: the rendered CSV text of a run does not depend on the ambient
per-run entropy, because the clustering is invoked with the hard-coded seed
42 (and is deterministic for a fixed seed per its documentation, modelled by
the clustering being a function of seed and data). -/
theorem C3_deterministic_runs (km : ℕ → ℕ → List P3 → List P3) (e1 e2 : ℕ)
    (t : List Obs) : run_clusters km e1 t = run_clusters km e2 t := rfl

/-- C7: The min-max normalizer fitted once on the augmented point set is
inverted exactly: its inverse transform is a left inverse of its forward
transform at every point, and the pipeline applies that single fitted scaler
in both directions (the clustering input is the forward image under
`scaler t` and the centers are mapped back with `(scaler t).inverse_transform`). -/
theorem C7_scaler_roundtrip (km : ℕ → ℕ → List P3 → List P3) (t : List Obs) (p : P3) :
    (scaler t).inverse_transform ((scaler t).transform p) = p ∧
    cluster_centers km t =
      (km 42 NCLUSTERS ((all_points t).map (scaler t).transform)).map
        (scaler t).inverse_transform :=
  ⟨inverse_transform_transform (scaler t) p, rfl⟩

set_option linter.unusedVariables false in
/-- C8: The synthetic grid has exactly 10^3 = 1000 points, is exactly the set
of all combinations of the 10 evenly spaced fractions in [0,1] per dimension
mapped to physical units by `min + fraction * range`, and every grid
coordinate lies within the corresponding feature's [min, max] over the raw
table. -/
theorem C8_grid (t : List Obs) (ht : t ≠ []) :
    (grid_points t).length = 1000 ∧
    (∀ p ∈ grid_points t,
      (distMin t ≤ p.x ∧ p.x ≤ distMax t) ∧ (elatMin t ≤ p.y ∧ p.y ≤ elatMax t) ∧
        (elonMin t ≤ p.z ∧ p.z ≤ elonMax t)) ∧
    (∀ p : P3, p ∈ grid_points t ↔
      ∃ d ∈ linspace01 10, ∃ e1 ∈ linspace01 10, ∃ e2 ∈ linspace01 10,
        p = ⟨distMin t + d * dist_range t, elatMin t + e1 * elat_range t,
             elonMin t + e2 * elon_range t⟩) :=
  ⟨length_grid_points t, fun _ hp => mem_grid_points_bounds hp, fun _ => mem_grid_points⟩

/-- Witness for C8 at the concrete table `tblSmall`. -/
theorem C8_grid_witness :
    (grid_points tblSmall).length = 1000 ∧
    (∀ p ∈ grid_points tblSmall,
      (distMin tblSmall ≤ p.x ∧ p.x ≤ distMax tblSmall) ∧
        (elatMin tblSmall ≤ p.y ∧ p.y ≤ elatMax tblSmall) ∧
        (elonMin tblSmall ≤ p.z ∧ p.z ≤ elonMax tblSmall)) ∧
    (∀ p : P3, p ∈ grid_points tblSmall ↔
      ∃ d ∈ linspace01 10, ∃ e1 ∈ linspace01 10, ∃ e2 ∈ linspace01 10,
        p = ⟨distMin tblSmall + d * dist_range tblSmall,
             elatMin tblSmall + e1 * elat_range tblSmall,
             elonMin tblSmall + e2 * elon_range tblSmall⟩) :=
  C8_grid tblSmall (by with_unfolding_all decide)

set_option linter.unusedVariables false in
/-- C4: For every non-empty input table whose size plus the 1000 synthetic
grid points is at least K = 31, the output table has exactly 31 rows,
regardless of the table's size — given the library contract that the
clustering returns exactly `n_clusters` centers whenever the sample count is
at least `n_clusters`. -/
theorem C4_row_count (km : ℕ → ℕ → List P3 → List P3) (t : List Obs) (ht : t ≠ [])
    (hsize : NCLUSTERS ≤ t.length + 1000)
    (hkm : ∀ s k (d : List P3), k ≤ d.length → (km s k d).length = k) :
    ∃ rows, pipeline km t = some rows ∧ rows.length = NCLUSTERS := by
  have hdlen : (features_scaled t).length = t.length + 1000 := by
    rw [features_scaled, List.length_map, all_points, List.length_append, features,
      List.length_map, length_grid_points]
  have hlen : (km 42 NCLUSTERS (features_scaled t)).length = NCLUSTERS :=
    hkm 42 NCLUSTERS _ (by rw [hdlen]; exact hsize)
  obtain ⟨rows, hrows⟩ := pipeline_some_of_length hlen
  exact ⟨rows, hrows, rows_length hrows⟩

/-- Witness for C4: the take-first-k clustering stub satisfies the length
contract, and the pipeline on `tblSmall` yields exactly 31 rows. -/
theorem C4_row_count_witness :
    ∃ rows, pipeline kmTake tblSmall = some rows ∧ rows.length = NCLUSTERS := by
  refine C4_row_count kmTake tblSmall (by with_unfolding_all decide) (by decide) ?_
  intro s k d hk
  simp only [kmTake, List.length_take]
  omega

/-- C5: The output index column is exactly the strings "01" through "31" in
that order (zero-padded, 1-based, each appearing once), and the distance
column is non-decreasing from top to bottom. -/
theorem C5_index_and_order (km : ℕ → ℕ → List P3 → List P3) (t : List Obs)
    (rows : List OutRow) (h : pipeline km t = some rows) :
    rows.map OutRow.index =
      ["01", "02", "03", "04", "05", "06", "07", "08", "09", "10",
       "11", "12", "13", "14", "15", "16", "17", "18", "19", "20", "21", "22",
       "23", "24", "25", "26", "27", "28", "29", "30", "31"] ∧
    rows.Pairwise (fun a b => a.distance_km ≤ b.distance_km) := by
  constructor
  · rw [rows_map_index h, indexStrings_eq]
  · exact rows_sorted h

/-- Witness for C5 at a concrete clustering result and table. -/
theorem C5_index_and_order_witness :
    ∃ rows, pipeline (kmConst cs31) tblSmall = some rows ∧
      (rows.map OutRow.index =
        ["01", "02", "03", "04", "05", "06", "07", "08", "09", "10",
         "11", "12", "13", "14", "15", "16", "17", "18", "19", "20", "21", "22",
         "23", "24", "25", "26", "27", "28", "29", "30", "31"] ∧
      rows.Pairwise (fun a b => a.distance_km ≤ b.distance_km)) := by
  have hsome : ∃ rows, pipeline (kmConst cs31) tblSmall = some rows := by
    rw [pipeline_kmConst]
    apply centers_df_some_of_length
    rw [List.length_map]
    simp [cs31]
  obtain ⟨rows, hrows⟩ := hsome
  exact ⟨rows, hrows, C5_index_and_order _ _ _ hrows⟩

end Clusters

namespace Clusters

theorem kmConst_cs31_inBBox :
    ∀ c ∈ kmConst cs31 42 NCLUSTERS (features_scaled tblSmall),
      inBBox c (features_scaled tblSmall) := by
  intro c hc
  have hc' : c ∈ cs31 := hc
  rcases List.mem_map.mp hc' with ⟨i, hi, rfl⟩
  have hi31 : i < 31 := List.mem_range.mp hi
  have h0 : (0:ℚ) ≤ (i:ℚ)/31 := by positivity
  have h1 : (i:ℚ)/31 ≤ 1 := by
    rw [div_le_one (by norm_num)]
    exact_mod_cast hi31.le
  unfold inBBox
  rw [scaled_foldMin_x, scaled_foldMax_x, scaled_foldMin_y, scaled_foldMax_y,
    scaled_foldMin_z, scaled_foldMax_z]
  have hdr : dist_range tblSmall = 9 := by with_unfolding_all decide
  have hyr : elat_range tblSmall = 1 := by with_unfolding_all decide
  have hzr : elon_range tblSmall = 1 := by with_unfolding_all decide
  rw [hdr, hyr, hzr]
  norm_num [handle_zeros]
  exact ⟨h0, h1, h0, h1, h0, h1⟩

/-- C2(amended): every written `distance_km` value is an exact 1-decimal
value and its CSV field shows exactly 1 fractional digit; every libration
value is an exact 3-decimal value and its CSV field shows between 1 and 3
fractional digits.  Exactly 3 digits cannot be guaranteed for the libration
fields because the float repr used by `to_csv` drops trailing zeros. -/
theorem C2_field_decimals (km : ℕ → ℕ → List P3 → List P3) (t : List Obs)
    (rows : List OutRow) (h : pipeline km t = some rows) :
    ∀ r ∈ rows,
      hasDecimals 1 r.distance_km ∧ shownFracDigits r.distance_km = 1 ∧
      hasDecimals 3 r.libration_elat ∧
        (1 ≤ shownFracDigits r.libration_elat ∧ shownFracDigits r.libration_elat ≤ 3) ∧
      hasDecimals 3 r.libration_elon ∧
        (1 ≤ shownFracDigits r.libration_elon ∧ shownFracDigits r.libration_elon ≤ 3) := by
  intro r hr
  obtain ⟨c, _, hdx, hdy, hdz⟩ := mem_rows_fields h hr
  rw [hdx, hdy, hdz]
  exact ⟨hasDecimals_round_dec 1 c.x, shownFracDigits_round_one c.x,
    hasDecimals_round_dec 3 c.y, ⟨one_le_shownFracDigits _, shownFracDigits_le_three _⟩,
    hasDecimals_round_dec 3 c.z, ⟨one_le_shownFracDigits _, shownFracDigits_le_three _⟩⟩

/-- Witness for C2(amended) at a concrete clustering result and table. -/
theorem C2_field_decimals_witness :
    ∃ rows, pipeline (kmConst cs31) tblSmall = some rows ∧
      ∀ r ∈ rows,
        hasDecimals 1 r.distance_km ∧ shownFracDigits r.distance_km = 1 ∧
        hasDecimals 3 r.libration_elat ∧
          (1 ≤ shownFracDigits r.libration_elat ∧ shownFracDigits r.libration_elat ≤ 3) ∧
        hasDecimals 3 r.libration_elon ∧
          (1 ≤ shownFracDigits r.libration_elon ∧ shownFracDigits r.libration_elon ≤ 3) := by
  have hsome : ∃ rows, pipeline (kmConst cs31) tblSmall = some rows := by
    rw [pipeline_kmConst]
    apply centers_df_some_of_length
    rw [List.length_map]
    simp [cs31]
  obtain ⟨rows, hrows⟩ := hsome
  exact ⟨rows, hrows, C2_field_decimals _ _ _ hrows⟩

/-- Counterexample to C2 as stated: on a valid (non-degenerate) table with an
admissible clustering result, an output row's `libration_elat` field is
written as "0.0" — one fractional digit, not three: trailing zeros are not
padded to 3 digits. -/
theorem C2_counterexample :
    ∃ rows, pipeline (kmConst cs31) tblSmall = some rows ∧
      ∃ r ∈ rows, shownFracDigits r.libration_elat ≠ 3 ∧
        decString r.libration_elat = "0.0" := by
  rw [pipeline_kmConst]
  with_unfolding_all decide

end Clusters

namespace Clusters

set_option linter.unusedVariables false in
/-- C6(amended): the un-rounded cluster centers (for any clustering result
inside the bounding box of the normalized data) lie exactly within the
input column ranges; the emitted rounded values lie within those ranges
widened by half an output ulp — 0.05 for `distance_km` and 0.0005 for the
libration fields.  Exact containment of the written values can fail because
rounding may cross the boundary. -/
theorem C6_output_ranges (km : ℕ → ℕ → List P3 → List P3) (t : List Obs)
    (rows : List OutRow) (ht : t ≠ [])
    (hbb : ∀ c ∈ km 42 NCLUSTERS (features_scaled t), inBBox c (features_scaled t))
    (h : pipeline km t = some rows) :
    (∀ c ∈ cluster_centers km t,
      (distMin t ≤ c.x ∧ c.x ≤ distMax t) ∧ (elatMin t ≤ c.y ∧ c.y ≤ elatMax t) ∧
        (elonMin t ≤ c.z ∧ c.z ≤ elonMax t)) ∧
    (∀ r ∈ rows,
      (distMin t - 1/20 ≤ r.distance_km ∧ r.distance_km ≤ distMax t + 1/20) ∧
      (elatMin t - 1/2000 ≤ r.libration_elat ∧ r.libration_elat ≤ elatMax t + 1/2000) ∧
      (elonMin t - 1/2000 ≤ r.libration_elon ∧ r.libration_elon ≤ elonMax t + 1/2000)) := by
  have hc := cluster_centers_bounds hbb
  refine ⟨hc, ?_⟩
  intro r hr
  obtain ⟨c, hcc, hdx, hdy, hdz⟩ := mem_rows_fields h hr
  obtain ⟨⟨hx1, hx2⟩, ⟨hy1, hy2⟩, ⟨hz1, hz2⟩⟩ := hc c hcc
  obtain ⟨hrx1, hrx2⟩ := round_dec_bounds 1 c.x
  obtain ⟨hry1, hry2⟩ := round_dec_bounds 3 c.y
  obtain ⟨hrz1, hrz2⟩ := round_dec_bounds 3 c.z
  norm_num at hrx1 hrx2 hry1 hry2 hrz1 hrz2
  rw [hdx, hdy, hdz]
  exact ⟨⟨by linarith, by linarith⟩, ⟨by linarith, by linarith⟩, ⟨by linarith, by linarith⟩⟩

/-- Witness for C6(amended) at a concrete clustering result and table. -/
theorem C6_output_ranges_witness :
    ∃ rows, pipeline (kmConst cs31) tblSmall = some rows ∧
      ((∀ c ∈ cluster_centers (kmConst cs31) tblSmall,
        (distMin tblSmall ≤ c.x ∧ c.x ≤ distMax tblSmall) ∧
          (elatMin tblSmall ≤ c.y ∧ c.y ≤ elatMax tblSmall) ∧
          (elonMin tblSmall ≤ c.z ∧ c.z ≤ elonMax tblSmall)) ∧
      (∀ r ∈ rows,
        (distMin tblSmall - 1/20 ≤ r.distance_km ∧
          r.distance_km ≤ distMax tblSmall + 1/20) ∧
        (elatMin tblSmall - 1/2000 ≤ r.libration_elat ∧
          r.libration_elat ≤ elatMax tblSmall + 1/2000) ∧
        (elonMin tblSmall - 1/2000 ≤ r.libration_elon ∧
          r.libration_elon ≤ elonMax tblSmall + 1/2000))) := by
  have hsome : ∃ rows, pipeline (kmConst cs31) tblSmall = some rows := by
    rw [pipeline_kmConst]
    apply centers_df_some_of_length
    rw [List.length_map]
    simp [cs31]
  obtain ⟨rows, hrows⟩ := hsome
  exact ⟨rows, hrows,
    C6_output_ranges _ _ _ (by with_unfolding_all decide) kmConst_cs31_inBBox hrows⟩

/-- Counterexample to C6 as stated: on a valid table whose distance minimum
is 0.04 and with an admissible (bounding-box respecting) clustering result,
an output row's written `distance_km` is 0.0, strictly below the input
column minimum — rounding to 1 decimal escapes the closed [min, max]
interval. -/
theorem C6_counterexample :
    (∀ c ∈ kmConst cs31 42 NCLUSTERS (features_scaled tblSmall),
      inBBox c (features_scaled tblSmall)) ∧
    ∃ rows, pipeline (kmConst cs31) tblSmall = some rows ∧
      ∃ r ∈ rows, r.distance_km < distMin tblSmall := by
  refine ⟨kmConst_cs31_inBBox, ?_⟩
  rw [pipeline_kmConst]
  with_unfolding_all decide

set_option linter.unusedVariables false in
/-- C1: claimed — a zero-range input table must make the pipeline fail with
a data-sufficiency error.  The code has no such check: for every input table
with zero range on all three features, and every clustering result
satisfying the library contract (31 centers inside the normalized data's
bounding box, which here is the single point (0,0,0)), the pipeline
SUCCEEDS and emits 31 rows whose numeric fields all equal the rounded single
input point — the degenerate all-identical output the spec forbids. -/
theorem C1_degenerate_no_failure (km : ℕ → ℕ → List P3 → List P3) (t : List Obs)
    (hx : dist_range t = 0) (hy : elat_range t = 0) (hz : elon_range t = 0)
    (ht : t ≠ [])
    (hbb : ∀ c ∈ km 42 NCLUSTERS (features_scaled t), inBBox c (features_scaled t))
    (hlen : (km 42 NCLUSTERS (features_scaled t)).length = NCLUSTERS) :
    ∃ rows, pipeline km t = some rows ∧ rows.length = NCLUSTERS ∧
      ∀ r ∈ rows, r.distance_km = round_dec 1 (distMin t) ∧
        r.libration_elat = round_dec 3 (elatMin t) ∧
        r.libration_elon = round_dec 3 (elonMin t) := by
  obtain ⟨rows, hrows⟩ := pipeline_some_of_length hlen
  refine ⟨rows, hrows, rows_length hrows, ?_⟩
  intro r hr
  obtain ⟨c, hc, h1, h2, h3⟩ := mem_rows_fields hrows hr
  rw [centers_collapse hx hy hz hbb c hc] at h1 h2 h3
  exact ⟨h1, h2, h3⟩

/-- Witness for C1 at the concrete degenerate table `tblDeg` (three copies of
one observation), with the clustering returning 31 copies of the single
normalized point: the pipeline completes and every row carries the rounded
single input value. -/
theorem C1_degenerate_no_failure_witness :
    ∃ rows, pipeline (kmConst (List.replicate NCLUSTERS ⟨0, 0, 0⟩)) tblDeg = some rows ∧
      rows.length = NCLUSTERS ∧
      ∀ r ∈ rows, r.distance_km = round_dec 1 (distMin tblDeg) ∧
        r.libration_elat = round_dec 3 (elatMin tblDeg) ∧
        r.libration_elon = round_dec 3 (elonMin tblDeg) := by
  have hx : dist_range tblDeg = 0 := by with_unfolding_all decide
  have hy : elat_range tblDeg = 0 := by with_unfolding_all decide
  have hz : elon_range tblDeg = 0 := by with_unfolding_all decide
  have hbb : ∀ c ∈ kmConst (List.replicate NCLUSTERS (⟨0, 0, 0⟩ : P3)) 42 NCLUSTERS
      (features_scaled tblDeg), inBBox c (features_scaled tblDeg) := by
    intro c hc
    have hc0 : c = ⟨0, 0, 0⟩ := List.eq_of_mem_replicate hc
    subst hc0
    unfold inBBox
    rw [scaled_foldMin_x, scaled_foldMax_x, scaled_foldMin_y, scaled_foldMax_y,
      scaled_foldMin_z, scaled_foldMax_z, hx, hy, hz]
    norm_num [handle_zeros]
  exact C1_degenerate_no_failure _ tblDeg hx hy hz (by with_unfolding_all decide) hbb
    (by simp [kmConst])

end Clusters

namespace Png2Ascii

theorem processRows_eq (chafa : String → ChafaResult) (rows : List ClusterRow) :
    processRows chafa rows =
      (rows.filterMap (fun r => match chafa (img_path r.index) with
        | .ok out => some (mkRecord r out)
        | .calledProcessError _ => none),
       rows.filterMap (fun r => match chafa (img_path r.index) with
        | .ok _ => none
        | .calledProcessError msg =>
            some ("Error processing " ++ img_path r.index ++ ": " ++ msg))) := by
  induction rows with
  | nil => rfl
  | cons r rs ih =>
    cases hres : chafa (img_path r.index) with
    | ok out => simp [processRows, hres, List.filterMap_cons, ih]
    | calledProcessError msg => simp [processRows, hres, List.filterMap_cons, ih]

/-- C9: when the external image-to-text invocation fails on some rows
(`CalledProcessError`), those rows are logged and skipped while every other
row is still processed: for every tool behavior, the artifact is written and
its `moons` list has exactly one record per successfully processed row, in
input order, while the error log has exactly one line per failing row, in
input order. -/
theorem C9_per_item_error_handling (chafa : String → ChafaResult)
    (rows : List ClusterRow) :
    (png2ascii chafa rows).1.moons =
      rows.filterMap (fun r => match chafa (img_path r.index) with
        | .ok out => some (mkRecord r out)
        | .calledProcessError _ => none) ∧
    (png2ascii chafa rows).2 =
      rows.filterMap (fun r => match chafa (img_path r.index) with
        | .ok _ => none
        | .calledProcessError msg =>
            some ("Error processing " ++ img_path r.index ++ ": " ++ msg)) := by
  have h := processRows_eq chafa rows
  constructor
  · show (processRows chafa rows).1 = _
    rw [h]
  · show (processRows chafa rows).2 = _
    rw [h]

end Png2Ascii

namespace Printer

/-- C10: `load_moon_data` is total at its interface: it is a function (the
embedding never raises), and on every artifact state the claim enumerates —
missing file, unreadable file, malformed JSON, or parsed JSON without a
usable `moons` key — it returns the empty list, after which `main` prints
`No moon data found.` and returns instead of crashing. -/
theorem C10_load_total (fs : ArtifactState) (h : LoadFailureState fs) :
    load_moon_data fs = .arr [] ∧
      main_transcript fs = some (header_lines ++ ["No moon data found."]) := by
  have hload : load_moon_data fs = .arr [] := by
    cases fs with
    | missing => rfl
    | unreadable m => rfl
    | malformedJson => rfl
    | parsed j =>
      cases j with
      | obj fields =>
        have hj : jlookup fields "moons" = none := h
        simp [load_moon_data, hj]
      | null => rfl
      | bool b => rfl
      | num q => rfl
      | str s => rfl
      | arr elems => rfl
  refine ⟨hload, ?_⟩
  simp [main_transcript, hload, isFalsy]

/-- Witness for C10 at the missing-file state. -/
theorem C10_load_total_witness :
    load_moon_data .missing = .arr [] ∧
      main_transcript .missing = some (header_lines ++ ["No moon data found."]) :=
  C10_load_total .missing trivial

end Printer
